import Mathlib

/-!
Verification of the per-ticker technical-signal computation of
GetStockData_01_9.py: streak counting (calculate_streak), safe scalar
extraction (get_scalar), rolling means with min_periods, month-end
resampling, the per-ticker analysis (analyze_single_stock) and the batch
loop (main).  Prices and volumes are modelled as rationals; a pandas NaN
is modelled as Option.none; the uncaught AttributeError that line 58
raises on a one-row monthly frame (its `squeeze()` yields a scalar, on
which `calculate_streak` cannot operate) is modelled as `Except.error`,
which the batch loop propagates just as the Python exception does.
-/

namespace StockData

/-- One daily OHLCV bar.  `month` is the calendar-month bucket of the
bar's date (linearised month index); `openP`, `close` and `volume` are
the fields the program reads.  Bars are ordered ascending by date. -/
structure DailyBar where
  month : Nat
  openP : Rat
  close : Rat
  volume : Rat
deriving DecidableEq

/-- Sign step of `calculate_streak`, source line 11:
`(series > 0).astype(int).replace(0, -1)` applied to one entry.  A NaN
entry compares False against 0, hence also becomes -1. -/
def optSign (x : Option Rat) : Int :=
  match x with
  | some v => if 0 < v then 1 else -1
  | none => -1

/-- Elementwise sign series of source line 11. -/
def pandasSign (s : List (Option Rat)) : List Int := s.map optSign

/-- Source line 12, inner comparison: `sign != sign.shift()` as 0/1
flags.  The first element is compared against the shifted-in NaN, which
is unequal to everything, hence flag 1. -/
def neqShift : Option Int → List Int → List Nat
  | _, [] => []
  | prev, x :: rest => (if some x = prev then 0 else 1) :: neqShift (some x) rest

/-- Source line 12, outer `.cumsum()`, threaded through an accumulator. -/
def cumsumFrom : Nat → List Nat → List Nat
  | _, [] => []
  | acc, x :: rest => (acc + x) :: cumsumFrom (acc + x) rest

/-- Source line 13: `sign.groupby([group, sign]).cumcount()`: for each
position, how many earlier positions carry the same (group id, sign)
key. -/
def cumcountAux : List (Nat × Int) → List (Nat × Int) → List Nat
  | _, [] => []
  | seen, k :: rest => seen.count k :: cumcountAux (seen ++ [k]) rest

/-- `calculate_streak` (source lines 9-14): sign of each difference,
run-change flags, cumulative group ids, position inside the
(group, sign) run plus one, multiplied by the sign. -/
def calculate_streak (s : List (Option Rat)) : List Int :=
  List.zipWith (fun a b => a * b) (pandasSign s)
    ((cumcountAux []
        ((cumsumFrom 0 (neqShift none (pandasSign s))).zip (pandasSign s))).map
      (fun c => (c : Int) + 1))

/-- State-passing form of the streak recurrence, lifted to
possibly-missing differences: carries the previous sign and the current
run length. -/
def specAuxO : Option Int → Nat → List (Option Rat) → List Int
  | _, _, [] => []
  | prev, len, x :: rest =>
    optSign x * (((if some (optSign x) = prev then len + 1 else 1) : Nat) : Int) ::
      specAuxO (some (optSign x)) (if some (optSign x) = prev then len + 1 else 1) rest

/-- Modelled from the spec sentence for `computeStreak`: per index,
`sign = +1 if difference > 0 else -1` (zero maps to -1), `length = 1`
on a sign change or at index 0, else previous length + 1, returning
`sign * length`.  State-passing helper. -/
def computeStreakSpecAux : Option Int → Nat → List Rat → List Int
  | _, _, [] => []
  | prev, len, x :: rest =>
    (if 0 < x then 1 else -1) *
        (((if some ((if 0 < x then 1 else -1) : Int) = prev then len + 1 else 1) : Nat) : Int) ::
      computeStreakSpecAux (some ((if 0 < x then 1 else -1) : Int))
        (if some ((if 0 < x then 1 else -1) : Int) = prev then len + 1 else 1) rest

/-- Modelled from the spec sentence for `computeStreak`: the full
difference series starts with no previous sign and length 0. -/
def computeStreakSpec (s : List Rat) : List Int := computeStreakSpecAux none 0 s

theorem calc_go (s : List (Option Rat)) :
    ∀ (ps : Int) (g : Nat) (seen : List (Nat × Int)) (len : Nat),
    seen.count (g, ps) = len → (∀ k ∈ seen, k.1 ≤ g) →
    List.zipWith (fun a b => a * b) (pandasSign s)
      ((cumcountAux seen
          ((cumsumFrom g (neqShift (some ps) (pandasSign s))).zip (pandasSign s))).map
        (fun c => (c : Int) + 1)) = specAuxO (some ps) len s := by
  induction s with
  | nil => intro ps g seen len h1 h2; rfl
  | cons x rest ih =>
    intro ps g seen len h1 h2
    by_cases hx : optSign x = ps
    · subst hx
      simp only [pandasSign, List.map_cons, neqShift, eq_self_iff_true, if_true,
        cumsumFrom, Nat.add_zero, List.zip_cons_cons, cumcountAux, h1,
        List.map_cons, List.zipWith_cons_cons, specAuxO, Nat.cast_add,
        Nat.cast_one]
      refine congrArg₂ List.cons rfl ?_
      refine ih (optSign x) g (seen ++ [(g, optSign x)]) (len + 1) ?_ ?_
      · simp [List.count_append, h1]
      · intro k hk
        rcases List.mem_append.mp hk with hk | hk
        · exact h2 k hk
        · simp only [List.mem_singleton] at hk
          subst hk
          exact le_refl g
    · have hcount : seen.count (g + 1, optSign x) = 0 := by
        refine List.count_eq_zero.mpr ?_
        intro hmem
        have := h2 _ hmem
        omega
      simp only [pandasSign, List.map_cons, neqShift, Option.some.injEq, hx,
        if_false, cumsumFrom, List.zip_cons_cons, cumcountAux, hcount,
        List.map_cons, List.zipWith_cons_cons, specAuxO, Nat.cast_one,
        Nat.cast_zero, zero_add]
      refine congrArg₂ List.cons (by norm_num) ?_
      refine ih (optSign x) (g + 1) (seen ++ [(g + 1, optSign x)]) 1 ?_ ?_
      · simp [List.count_append, hcount]
      · intro k hk
        rcases List.mem_append.mp hk with hk | hk
        · exact le_trans (h2 k hk) (Nat.le_succ g)
        · simp only [List.mem_singleton] at hk
          subst hk
          exact le_refl (g + 1)

theorem calc_eq_specO (s : List (Option Rat)) :
    calculate_streak s = specAuxO none 0 s := by
  cases s with
  | nil => rfl
  | cons x rest =>
    unfold calculate_streak
    simp only [pandasSign, List.map_cons, neqShift, Option.some_ne_none,
      if_false, cumsumFrom, Nat.zero_add, List.zip_cons_cons, cumcountAux,
      List.count_nil, List.map_cons, List.zipWith_cons_cons, specAuxO,
      Nat.cast_zero, zero_add, Nat.cast_one]
    refine congrArg₂ List.cons (by norm_num) ?_
    refine calc_go rest (optSign x) 1 [(1, optSign x)] 1 ?_ ?_
    · simp
    · intro k hk
      simp only [List.mem_singleton] at hk
      subst hk
      exact le_refl 1

theorem specAuxO_map_some :
    ∀ (prev : Option Int) (len : Nat) (s : List Rat),
    specAuxO prev len (s.map some) = computeStreakSpecAux prev len s := by
  intro prev len s
  induction s generalizing prev len with
  | nil => rfl
  | cons x rest ih =>
    simp only [List.map_cons, specAuxO, computeStreakSpecAux, optSign]
    exact congrArg₂ List.cons rfl (ih _ _)

theorem optSign_natAbs (x : Option Rat) : (optSign x).natAbs = 1 := by
  cases x with
  | none => rfl
  | some v =>
    by_cases h : 0 < v
    · simp [optSign, h]
    · simp [optSign, h]

theorem specAuxO_length (s : List (Option Rat)) :
    ∀ (prev : Option Int) (len : Nat), (specAuxO prev len s).length = s.length := by
  induction s with
  | nil => intro prev len; rfl
  | cons x rest ih =>
    intro prev len
    simp only [specAuxO, List.length_cons, ih]

theorem specAuxO_mem (s : List (Option Rat)) :
    ∀ (prev : Option Int) (len : Nat) (v : Int),
    v ∈ specAuxO prev len s → 1 ≤ v.natAbs := by
  induction s with
  | nil => intro prev len v hv; simp [specAuxO] at hv
  | cons x rest ih =>
    intro prev len v hv
    simp only [specAuxO, List.mem_cons] at hv
    rcases hv with hv | hv
    · subst hv
      rw [Int.natAbs_mul, optSign_natAbs, one_mul, Int.natAbs_ofNat]
      by_cases h : some (optSign x) = prev
      · simp [h]
      · simp [h]
    · exact ih _ _ _ hv

theorem specAuxO_getD_bound (s : List (Option Rat)) :
    ∀ (ps : Int) (len i : Nat), i < s.length →
    ((specAuxO (some ps) len s).getD i 0).natAbs ≤ len + i + 1 := by
  induction s with
  | nil => intro ps len i hi; simp at hi
  | cons x rest ih =>
    intro ps len i hi
    cases i with
    | zero =>
      simp only [specAuxO, List.getD_cons_zero]
      rw [Int.natAbs_mul, optSign_natAbs, one_mul, Int.natAbs_ofNat]
      by_cases h : some (optSign x) = some ps
      · simp [h]
      · simp [h]
    | succ i =>
      simp only [specAuxO, List.getD_cons_succ]
      by_cases h : some (optSign x) = some ps
      · have hsx : optSign x = ps := Option.some_injective _ h
        simp only [hsx, eq_self_iff_true, if_true]
        have := ih ps (len + 1) i (by simpa using hi)
        omega
      · simp only [h, if_false]
        have := ih (optSign x) 1 i (by simpa using hi)
        omega

theorem specAuxO_none_getD_bound (s : List (Option Rat)) :
    ∀ (i : Nat), i < s.length →
    ((specAuxO none 0 s).getD i 0).natAbs ≤ i + 1 := by
  cases s with
  | nil => intro i hi; simp at hi
  | cons x rest =>
    intro i hi
    cases i with
    | zero =>
      simp only [specAuxO, Option.some_ne_none, if_false, List.getD_cons_zero]
      rw [Int.natAbs_mul, optSign_natAbs, one_mul, Int.natAbs_ofNat]
    | succ i =>
      simp only [specAuxO, Option.some_ne_none, if_false, List.getD_cons_succ]
      have := specAuxO_getD_bound rest (optSign x) 1 i (by simpa using hi)
      omega

theorem calculate_streak_length (s : List (Option Rat)) :
    (calculate_streak s).length = s.length := by
  rw [calc_eq_specO, specAuxO_length]

theorem calculate_streak_mem (s : List (Option Rat)) (v : Int)
    (hv : v ∈ calculate_streak s) : 1 ≤ v.natAbs := by
  rw [calc_eq_specO] at hv
  exact specAuxO_mem s none 0 v hv

/-- C2: `calculate_streak` computes, for each index, `sign * length` with
`sign = +1` when the difference is strictly positive and `-1` otherwise
(a zero difference gives `-1`), and `length` restarting at 1 at index 0
or on a sign change, else incrementing the previous length: the pandas
pipeline agrees with the spec recurrence on every difference series. -/
theorem calculate_streak_matches_spec (l : List Rat) :
    calculate_streak (l.map some) = computeStreakSpec l := by
  rw [calc_eq_specO, computeStreakSpec, specAuxO_map_some]

/-- C10: on every input series, `calculate_streak` returns a series of
the same length, in which every entry is nonzero and the entry at index
i has absolute value between 1 and i + 1. -/
theorem calculate_streak_bounds (s : List (Option Rat)) :
    (calculate_streak s).length = s.length ∧
    ∀ i, i < s.length →
      ((calculate_streak s).getD i 0 ≠ 0 ∧
        1 ≤ ((calculate_streak s).getD i 0).natAbs ∧
        ((calculate_streak s).getD i 0).natAbs ≤ i + 1) := by
  constructor
  · exact calculate_streak_length s
  · intro i hi
    have hlen2 : i < (calculate_streak s).length := by
      rw [calculate_streak_length]
      exact hi
    have hmem : (calculate_streak s).getD i 0 ∈ calculate_streak s := by
      rw [List.getD_eq_getElem _ _ hlen2]
      exact List.getElem_mem hlen2
    have h1 : 1 ≤ ((calculate_streak s).getD i 0).natAbs :=
      calculate_streak_mem s _ hmem
    refine ⟨?_, h1, ?_⟩
    · intro h0
      rw [h0] at h1
      simp at h1
    · rw [calc_eq_specO]
      have hlen : i < s.length := hi
      exact specAuxO_none_getD_bound s i hlen

/-- `series.rolling(window=w, min_periods=minP).mean()` (source lines
53, 61-63): at index i the window holds the trailing values from index
`i + 1 - w` to `i`; NaN entries are dropped, and the mean of the
remaining entries is produced once at least `minP` of them exist,
otherwise the result is NaN. -/
def rollingMeanO (w minP : Nat) (s : List (Option Rat)) : List (Option Rat) :=
  (List.range s.length).map (fun i =>
    if minP ≤ (((s.take (i + 1)).drop (i + 1 - w)).reduceOption).length then
      some ((((s.take (i + 1)).drop (i + 1 - w)).reduceOption).sum /
        (((((s.take (i + 1)).drop (i + 1 - w)).reduceOption).length : Nat) : Rat))
    else none)

/-- Aligned elementwise difference of two series, NaN-absorbing (source
lines 58, 66, 67: `month['Close'] - month['Month_20']` etc.). -/
def subO (a b : List (Option Rat)) : List (Option Rat) :=
  List.zipWith (fun x y =>
    match x, y with
    | some u, some v => some (u - v)
    | _, _ => none) a b

/-- `df[['Close']].resample('ME').last()` (source line 52): one value per
calendar month, the last observation of each month; months inside the
covered range with no observation become NaN rows. -/
def lastOfRuns (f : DailyBar → Rat) : List DailyBar → List (Option Rat)
  | [] => []
  | b :: rest =>
    match rest with
    | [] => [some (f b)]
    | b2 :: _ =>
      if b.month = b2.month then lastOfRuns f rest
      else some (f b) :: (List.replicate (b2.month - b.month - 1) none ++ lastOfRuns f rest)

/-- `get_scalar` (source lines 16-20): NaN-safe scalar extraction, NaN
becomes 0. -/
def get_scalar (v : Option Int) : Int :=
  match v with
  | none => 0
  | some x => x

/-- Python `int(...)` on a rational: truncation toward zero. -/
def pyInt (q : Rat) : Int := if q < 0 then -Int.floor (-q) else Int.floor q

/-- Volume day-over-day ratio (source lines 70-72): guarded against a
zero (or negative) denominator. -/
def volume_ratio_calc (v0 v1 : Rat) : Int :=
  if 0 < v1 then pyInt (v0 / v1 * 100) else 0

/-- Monthly close series of source line 52. -/
def monthClose (bars : List DailyBar) : List (Option Rat) :=
  lastOfRuns DailyBar.close bars

/-- Daily close series as read from the fetched frame (all present). -/
def dailyClose (bars : List DailyBar) : List (Option Rat) :=
  bars.map (fun b => some b.close)

/-- `month['streak_20m']` (source line 58).  When the monthly frame has
exactly one row, `month['Close'].squeeze()` is a scalar, not a Series,
and `calculate_streak` raises an uncaught AttributeError
(`.astype(int).replace` on a scalar); this Python exception is modelled
as `Except.error ()`.  With two or more monthly rows the squeeze keeps
the Series and the streak column is computed. -/
def streak20m (bars : List DailyBar) : Except Unit (List Int) :=
  if (monthClose bars).length = 1 then Except.error ()
  else Except.ok
    (calculate_streak (subO (monthClose bars) (rollingMeanO 20 1 (monthClose bars))))

/-- `df['streak_20d']` (source line 66), with the same squeeze-scalar
AttributeError as line 58 when the daily frame has exactly one row
(unreachable from `analyze_single_stock`, which requires three bars). -/
def streak20d (bars : List DailyBar) : Except Unit (List Int) :=
  if (dailyClose bars).length = 1 then Except.error ()
  else Except.ok
    (calculate_streak (subO (dailyClose bars) (rollingMeanO 20 1 (dailyClose bars))))

/-- `df['streak_7d']` (source line 67), same squeeze-scalar behaviour
as `streak20d`. -/
def streak7d (bars : List DailyBar) : Except Unit (List Int) :=
  if (dailyClose bars).length = 1 then Except.error ()
  else Except.ok
    (calculate_streak (subO (dailyClose bars) (rollingMeanO 7 1 (dailyClose bars))))

/-- The per-ticker output record (source lines 78-85, column names of
lines 144-147).  `obs_date` is the run's wall-clock date. -/
structure TickerSignal where
  code : String
  name : String
  latest_price : Int
  month20_flag : Int
  month20_streak : Int
  day20_flag : Int
  day20_streak : Int
  day7_flag : Int
  day7_streak : Int
  volume_0 : Int
  volume_1 : Int
  volume_2 : Int
  volume_ratio : Int
  obs_date : Nat
deriving DecidableEq

/-- Assembly of the returned record (source lines 69-85), given the
last close `price`, the last three volumes `v0, v1, v2` (lines 43-46)
and the three computed streak columns.  The `Month_First` /
`Month_Last` columns of lines 54-55 and `sma60` of line 63 are computed
by the source but never read for the output, so they are omitted
here. -/
def mkSignal (code nm : String) (today : Nat) (price v0 v1 v2 : Rat)
    (s20m s20d s7d : List Int) : TickerSignal where
  code := code
  name := nm
  latest_price := pyInt price
  month20_flag := if 0 < get_scalar s20m.getLast? then 1 else -1
  month20_streak := get_scalar s20m.getLast?
  day20_flag := if 0 < get_scalar s20d.getLast? then 1 else -1
  day20_streak := get_scalar s20d.getLast?
  day7_flag := if 0 < get_scalar s7d.getLast? then 1 else -1
  day7_streak := get_scalar s7d.getLast?
  volume_0 := pyInt v0
  volume_1 := pyInt v1
  volume_2 := pyInt v2
  volume_ratio := volume_ratio_calc v0 v1
  obs_date := today

/-- `analyze_single_stock` (source lines 34-85): an empty fetch result
gives None (lines 38-40); reading the last close and the last three
volumes raises IndexError on a series shorter than 3 bars, caught and
turned into None (lines 42-49); then the streak columns are computed in
source order (lines 58, 66, 67) - the squeeze-scalar AttributeError of
a single-calendar-month series is uncaught (the only handler, lines
47-49, catches IndexError around lines 43-46) and escapes as
`Except.error ()`; otherwise the full record is built. -/
def analyze_single_stock (code nm : String) (today : Nat)
    (bars : List DailyBar) : Except Unit (Option TickerSignal) :=
  if bars.isEmpty then Except.ok none
  else
    match (bars.map DailyBar.close).reverse, (bars.map DailyBar.volume).reverse with
    | price :: _, v0 :: v1 :: v2 :: _ =>
      match streak20m bars with
      | Except.error e => Except.error e
      | Except.ok s20m =>
        match streak20d bars with
        | Except.error e => Except.error e
        | Except.ok s20d =>
          match streak7d bars with
          | Except.error e => Except.error e
          | Except.ok s7d =>
            Except.ok (some (mkSignal code nm today price v0 v1 v2 s20m s20d s7d))
    | _, _ => Except.ok none

/-- The main loop over the ticker universe (source lines 130-137): a
None result contributes nothing (line 136), a record is appended, and
an uncaught Python exception propagates out of the loop - there is no
handler in `main` - aborting the whole batch. -/
def runBatchAux (fetch : String → List DailyBar) (today : Nat) :
    List TickerSignal → List (String × String) → Except Unit (List TickerSignal)
  | acc, [] => Except.ok acc
  | acc, t :: rest =>
    match analyze_single_stock t.1 t.2 today (fetch t.1) with
    | Except.error e => Except.error e
    | Except.ok none => runBatchAux fetch today acc rest
    | Except.ok (some ts) => runBatchAux fetch today (acc ++ [ts]) rest

/-- The batch over the full universe, starting from an empty result
list. -/
def runBatch (fetch : String → List DailyBar) (today : Nat)
    (tickers : List (String × String)) : Except Unit (List TickerSignal) :=
  runBatchAux fetch today [] tickers

/-- `main` up to the result table (source lines 108-137): a missing
ticker list (`load_tickers` returning None, lines 124-127) aborts the
run before any ticker is processed; otherwise the batch runs. -/
def mainModel (fetch : String → List DailyBar) (today : Nat)
    (tickerFile : Option (List (String × String))) :
    Option (Except Unit (List TickerSignal)) :=
  match tickerFile with
  | none => none
  | some tickers => some (runBatch fetch today tickers)

theorem reduceOption_map_some (l : List Rat) : (l.map some).reduceOption = l := by
  induction l with
  | nil => rfl
  | cons x t ih => simpa [List.reduceOption_cons_of_some] using ih

theorem rollingMeanO_length (w p : Nat) (s : List (Option Rat)) :
    (rollingMeanO w p s).length = s.length := by
  simp [rollingMeanO]

theorem rollingMeanO_getElem (w p : Nat) (s : List (Option Rat)) (i : Nat)
    (hi : i < s.length) :
    (rollingMeanO w p s)[i]? = some (
      if p ≤ (((s.take (i + 1)).drop (i + 1 - w)).reduceOption).length then
        some ((((s.take (i + 1)).drop (i + 1 - w)).reduceOption).sum /
          (((((s.take (i + 1)).drop (i + 1 - w)).reduceOption).length : Nat) : Rat))
      else none) := by
  rw [rollingMeanO, List.getElem?_map, List.getElem?_range hi]
  rfl

/-- C8: with `min_periods = 1`, the rolling mean of a plain (NaN-free)
series is defined at every index of the input, the value at index i is
the mean of the trailing `min(window, i+1)` values, and the first
element equals the first input value. -/
theorem rollingMean_minPeriods_one (w : Nat) (hw : 0 < w) (s : List Rat)
    (i : Nat) (hi : i < s.length) :
    ((s.take (i + 1)).drop (i + 1 - w)).length = min w (i + 1) ∧
    (rollingMeanO w 1 (s.map some))[i]? =
      some (some (((s.take (i + 1)).drop (i + 1 - w)).sum /
        (((((s.take (i + 1)).drop (i + 1 - w)).length : Nat)) : Rat))) ∧
    (i = 0 → (rollingMeanO w 1 (s.map some))[i]? = some (some s.headI)) := by
  have hwin : ((s.map some).take (i + 1)).drop (i + 1 - w) =
      ((s.take (i + 1)).drop (i + 1 - w)).map some := by
    rw [← List.map_take, ← List.map_drop]
  have hlen : ((s.take (i + 1)).drop (i + 1 - w)).length = min w (i + 1) := by
    rw [List.length_drop, List.length_take]
    omega
  have hget : (rollingMeanO w 1 (s.map some))[i]? =
      some (some (((s.take (i + 1)).drop (i + 1 - w)).sum /
        (((((s.take (i + 1)).drop (i + 1 - w)).length : Nat)) : Rat))) := by
    rw [rollingMeanO_getElem w 1 (s.map some) i (by simpa using hi), hwin,
      reduceOption_map_some, if_pos (by omega)]
  refine ⟨hlen, hget, ?_⟩
  intro hi0
  subst hi0
  rw [hget]
  have hw0 : 1 - w = 0 := by omega
  rcases s with _ | ⟨a, t⟩
  · simp at hi
  · rw [hw0]
    simp [List.take, List.headI]

/-- C5: a fetched series with fewer than 3 bars (the empty fetch
included) makes `analyze_single_stock` return None - no partial record
and no uncaught error, since both guards (lines 38-40 and 42-49) fire
before the streak computation of line 58. -/
theorem short_series_none (code nm : String) (today : Nat)
    (bars : List DailyBar) (h : bars.length < 3) :
    analyze_single_stock code nm today bars = Except.ok none := by
  rcases bars with _ | ⟨a, _ | ⟨b, _ | ⟨c, t⟩⟩⟩
  · rfl
  · rfl
  · rfl
  · simp only [List.length_cons] at h
    omega

theorem runBatchAux_append (fetch : String → List DailyBar) (today : Nat)
    (pre rest : List (String × String)) :
    ∀ acc, runBatchAux fetch today acc (pre ++ rest) =
      (match runBatchAux fetch today acc pre with
       | Except.error e => Except.error e
       | Except.ok acc2 => runBatchAux fetch today acc2 rest) := by
  induction pre with
  | nil => intro acc; rfl
  | cons t pre ih =>
    intro acc
    rcases h : analyze_single_stock t.1 t.2 today (fetch t.1) with e | o
    · simp only [List.cons_append, runBatchAux, h]
    · rcases o with _ | ts
      · simp only [List.cons_append, runBatchAux, h]
        exact ih acc
      · simp only [List.cons_append, runBatchAux, h]
        exact ih (acc ++ [ts])

/-- C3 (amended): the failures the code handles - empty fetch result
and fewer-than-3-bar series, which make `analyze_single_stock` return
None - cause only that ticker to be skipped, the batch continuing
unchanged; the missing ticker-list case aborts the run before any
ticker is processed; but an error the per-ticker computation does not
handle (the uncaught squeeze-scalar AttributeError of source line 58)
aborts the entire batch as soon as that ticker is reached, leaving the
remaining tickers unprocessed. -/
theorem ticker_failure_policy (fetch : String → List DailyBar) (today : Nat)
    (pre post : List (String × String)) (t : String × String)
    (acc : List TickerSignal) :
    (analyze_single_stock t.1 t.2 today (fetch t.1) = Except.ok none →
      runBatch fetch today (pre ++ t :: post) =
        runBatch fetch today (pre ++ post)) ∧
    (analyze_single_stock t.1 t.2 today (fetch t.1) = Except.error () →
      runBatchAux fetch today acc (t :: post) = Except.error ()) ∧
    mainModel fetch today none = none := by
  refine ⟨?_, ?_, rfl⟩
  · intro h
    rw [runBatch, runBatch, runBatchAux_append, runBatchAux_append]
    rcases hp : runBatchAux fetch today [] pre with e | acc2
    · rfl
    · simp only [runBatchAux, h]
  · intro h
    simp only [runBatchAux, h]

theorem analyze_eq (code nm : String) (today : Nat) (bars : List DailyBar)
    (ts : TickerSignal)
    (h : analyze_single_stock code nm today bars = Except.ok (some ts)) :
    ∃ price cr v0 v1 v2 vr s20m s20d s7d,
      (bars.map DailyBar.close).reverse = price :: cr ∧
      (bars.map DailyBar.volume).reverse = v0 :: v1 :: v2 :: vr ∧
      streak20m bars = Except.ok s20m ∧
      streak20d bars = Except.ok s20d ∧
      streak7d bars = Except.ok s7d ∧
      ts = mkSignal code nm today price v0 v1 v2 s20m s20d s7d := by
  unfold analyze_single_stock at h
  by_cases hemp : bars.isEmpty
  · rw [if_pos hemp] at h
    simp at h
  · rw [if_neg hemp] at h
    rcases hc : (bars.map DailyBar.close).reverse with _ | ⟨price, cr⟩
    · rw [hc] at h
      simp at h
    · rw [hc] at h
      rcases hv : (bars.map DailyBar.volume).reverse with
          _ | ⟨v0, _ | ⟨v1, _ | ⟨v2, vr⟩⟩⟩
      · rw [hv] at h; simp at h
      · rw [hv] at h; simp at h
      · rw [hv] at h; simp at h
      · rw [hv] at h
        simp only [] at h
        rcases hm : streak20m bars with e | s20m
        · rw [hm] at h; simp at h
        · rw [hm] at h
          simp only [] at h
          rcases h20 : streak20d bars with e | s20d
          · rw [h20] at h; simp at h
          · rw [h20] at h
            simp only [] at h
            rcases h7 : streak7d bars with e | s7d
            · rw [h7] at h; simp at h
            · rw [h7] at h
              simp only [Except.ok.injEq, Option.some.injEq] at h
              exact ⟨price, cr, v0, v1, v2, vr, s20m, s20d, s7d, rfl, rfl,
                rfl, rfl, rfl, h.symm⟩

theorem lastOfRuns_ne_nil (f : DailyBar → Rat) (bars : List DailyBar)
    (h : bars ≠ []) : lastOfRuns f bars ≠ [] := by
  induction bars with
  | nil => exact absurd rfl h
  | cons b rest ih =>
    cases rest with
    | nil => simp [lastOfRuns]
    | cons b2 r2 =>
      rw [lastOfRuns]
      by_cases hm : b.month = b2.month
      · rw [if_pos hm]
        exact ih (by simp)
      · rw [if_neg hm]
        simp

theorem subO_rolling_length (w p : Nat) (s : List (Option Rat)) :
    (subO s (rollingMeanO w p s)).length = s.length := by
  rw [subO, List.length_zipWith, rollingMeanO_length]
  simp

theorem streak20m_ok_spec (bars : List DailyBar) (l : List Int)
    (h : streak20m bars = Except.ok l) :
    l = calculate_streak
      (subO (monthClose bars) (rollingMeanO 20 1 (monthClose bars))) := by
  rw [streak20m] at h
  by_cases hc : (monthClose bars).length = 1
  · rw [if_pos hc] at h
    exact absurd h (by simp)
  · rw [if_neg hc] at h
    injection h with h2
    exact h2.symm

theorem streak20d_ok_spec (bars : List DailyBar) (l : List Int)
    (h : streak20d bars = Except.ok l) :
    l = calculate_streak
      (subO (dailyClose bars) (rollingMeanO 20 1 (dailyClose bars))) := by
  rw [streak20d] at h
  by_cases hc : (dailyClose bars).length = 1
  · rw [if_pos hc] at h
    exact absurd h (by simp)
  · rw [if_neg hc] at h
    injection h with h2
    exact h2.symm

theorem streak7d_ok_spec (bars : List DailyBar) (l : List Int)
    (h : streak7d bars = Except.ok l) :
    l = calculate_streak
      (subO (dailyClose bars) (rollingMeanO 7 1 (dailyClose bars))) := by
  rw [streak7d] at h
  by_cases hc : (dailyClose bars).length = 1
  · rw [if_pos hc] at h
    exact absurd h (by simp)
  · rw [if_neg hc] at h
    injection h with h2
    exact h2.symm

theorem getLast_get_scalar_natAbs (l : List Int) (hl : l ≠ [])
    (hmem : ∀ v ∈ l, 1 ≤ v.natAbs) :
    get_scalar l.getLast? ≠ 0 ∧ 1 ≤ (get_scalar l.getLast?).natAbs := by
  rw [List.getLast?_eq_getLast_of_ne_nil hl]
  have h1 : 1 ≤ (l.getLast hl).natAbs := hmem _ (List.getLast_mem hl)
  refine ⟨?_, h1⟩
  intro h0
  rw [show get_scalar (some (l.getLast hl)) = l.getLast hl from rfl] at h0
  rw [h0] at h1
  simp at h1

theorem ok_streak_facts (mc : List (Option Rat)) (w : Nat) (l : List Int)
    (hl : l = calculate_streak (subO mc (rollingMeanO w 1 mc))) (hne : mc ≠ []) :
    get_scalar l.getLast? ≠ 0 ∧ 1 ≤ (get_scalar l.getLast?).natAbs := by
  have hlen : l.length = mc.length := by
    rw [hl, calculate_streak_length, subO_rolling_length]
  have hlne : l ≠ [] := by
    intro h0
    rw [h0] at hlen
    exact hne (List.length_eq_zero.mp hlen.symm)
  refine getLast_get_scalar_natAbs l hlne ?_
  intro v hv
  rw [hl] at hv
  exact calculate_streak_mem _ v hv

theorem flag_iff_helper (v : Int) :
    ((if 0 < v then (1 : Int) else -1) = 1 ↔ 0 < v) ∧
    ((if 0 < v then (1 : Int) else -1) = -1 ↔ v ≤ 0) := by
  by_cases hp : 0 < v
  · constructor
    · simp [hp]
    · rw [if_pos hp]
      constructor
      · intro h1; omega
      · intro h1; omega
  · constructor
    · rw [if_neg hp]
      constructor
      · intro h1; omega
      · intro h1; omega
    · simp [hp]
      omega

/-- C1 (amended): each streak result is stored with
direction = +1 when the streak value is > 0 and -1 otherwise, exactly
as claimed, but the streak-length field stores the signed streak value
itself, not its absolute value; the absolute value of the stored field
is >= 1 whenever the record is produced (the field is negative, not
positive, on a non-positive streak). -/
theorem streak_fields_signed (code nm : String) (today : Nat)
    (bars : List DailyBar) (ts : TickerSignal)
    (h : analyze_single_stock code nm today bars = Except.ok (some ts)) :
    (ts.month20_flag = if 0 < ts.month20_streak then 1 else -1) ∧
    ts.month20_streak ≠ 0 ∧ 1 ≤ ts.month20_streak.natAbs ∧
    (ts.day20_flag = if 0 < ts.day20_streak then 1 else -1) ∧
    ts.day20_streak ≠ 0 ∧ 1 ≤ ts.day20_streak.natAbs ∧
    (ts.day7_flag = if 0 < ts.day7_streak then 1 else -1) ∧
    ts.day7_streak ≠ 0 ∧ 1 ≤ ts.day7_streak.natAbs := by
  obtain ⟨price, cr, v0, v1, v2, vr, s20m, s20d, s7d, hc, hv, hm, h20, h7, hts⟩ :=
    analyze_eq code nm today bars ts h
  subst hts
  have hbne : bars ≠ [] := by
    intro hb
    subst hb
    simp at hc
  have hmne : monthClose bars ≠ [] := lastOfRuns_ne_nil DailyBar.close bars hbne
  have hdne : dailyClose bars ≠ [] := by
    intro h0
    have hl : bars.length = 0 := by
      have h2 := congrArg List.length h0
      simpa [dailyClose] using h2
    exact hbne (List.length_eq_zero.mp hl)
  have f1 := ok_streak_facts (monthClose bars) 20 s20m
    (streak20m_ok_spec bars s20m hm) hmne
  have f2 := ok_streak_facts (dailyClose bars) 20 s20d
    (streak20d_ok_spec bars s20d h20) hdne
  have f3 := ok_streak_facts (dailyClose bars) 7 s7d
    (streak7d_ok_spec bars s7d h7) hdne
  exact ⟨rfl, f1.1, f1.2, rfl, f2.1, f2.2, rfl, f3.1, f3.2⟩

/-- C9: in every produced record the direction flag is determined by
the stored streak field: it is 1 exactly when the stored value is
strictly positive and -1 exactly when the stored value is zero or
negative. -/
theorem flag_iff_streak_pos (code nm : String) (today : Nat)
    (bars : List DailyBar) (ts : TickerSignal)
    (h : analyze_single_stock code nm today bars = Except.ok (some ts)) :
    ((ts.month20_flag = 1 ↔ 0 < ts.month20_streak) ∧
      (ts.month20_flag = -1 ↔ ts.month20_streak ≤ 0)) ∧
    ((ts.day20_flag = 1 ↔ 0 < ts.day20_streak) ∧
      (ts.day20_flag = -1 ↔ ts.day20_streak ≤ 0)) ∧
    ((ts.day7_flag = 1 ↔ 0 < ts.day7_streak) ∧
      (ts.day7_flag = -1 ↔ ts.day7_streak ≤ 0)) := by
  obtain ⟨price, cr, v0, v1, v2, vr, s20m, s20d, s7d, hc, hv, hm, h20, h7, hts⟩ :=
    analyze_eq code nm today bars ts h
  subst hts
  exact ⟨flag_iff_helper _, flag_iff_helper _, flag_iff_helper _⟩

/-- C4: for every analyzable series the volume-ratio field equals
floor(volume_today / volume_prev1 * 100) whenever the previous volume
is positive (the volumes being nonnegative), and equals 0 when the
previous volume is zero, with no division fault. -/
theorem volume_ratio_spec (code nm : String) (today : Nat)
    (bars : List DailyBar) (ts : TickerSignal)
    (h : analyze_single_stock code nm today bars = Except.ok (some ts)) :
    ∃ v0 v1 v2 vr, (bars.map DailyBar.volume).reverse = v0 :: v1 :: v2 :: vr ∧
      (0 ≤ v0 → 0 < v1 → ts.volume_ratio = Int.floor (v0 / v1 * 100)) ∧
      (v1 = 0 → ts.volume_ratio = 0) := by
  obtain ⟨price, cr, v0, v1, v2, vr, s20m, s20d, s7d, hc, hv, hm, h20, h7, hts⟩ :=
    analyze_eq code nm today bars ts h
  subst hts
  refine ⟨v0, v1, v2, vr, hv, ?_, ?_⟩
  · intro h0 h1
    have hq : 0 ≤ v0 / v1 * 100 :=
      mul_nonneg (div_nonneg h0 (le_of_lt h1)) (by norm_num)
    show volume_ratio_calc v0 v1 = _
    rw [volume_ratio_calc, if_pos h1, pyInt, if_neg (not_lt.mpr hq)]
  · intro h1
    show volume_ratio_calc v0 v1 = 0
    rw [volume_ratio_calc, if_neg (by rw [h1]; exact lt_irrefl 0)]

/-- C6: the latest_price field of every produced record is the last
daily close converted to an integer by the source's `int(...)`. -/
theorem latest_price_last_close (code nm : String) (today : Nat)
    (bars : List DailyBar) (ts : TickerSignal)
    (h : analyze_single_stock code nm today bars = Except.ok (some ts)) :
    ∃ c, (bars.map DailyBar.close).getLast? = some c ∧
      ts.latest_price = pyInt c := by
  obtain ⟨price, cr, v0, v1, v2, vr, s20m, s20d, s7d, hc, hv, hm, h20, h7, hts⟩ :=
    analyze_eq code nm today bars ts h
  subst hts
  refine ⟨price, ?_, rfl⟩
  rw [← List.head?_reverse, hc]
  rfl

/-- C7: an absent (NaN) latest streak value is replaced by the defined
default 0 by `get_scalar`, and the corresponding record fields become
direction = -1 and streak field = 0; nothing undefined reaches the
record. -/
theorem nan_streak_default (code nm : String) (today : Nat)
    (price v0 v1 v2 : Rat) (s20m s20d s7d : List Int)
    (hm : s20m.getLast? = none)
    (hd20 : s20d.getLast? = none)
    (hd7 : s7d.getLast? = none) :
    get_scalar none = 0 ∧
    (mkSignal code nm today price v0 v1 v2 s20m s20d s7d).month20_flag = -1 ∧
    (mkSignal code nm today price v0 v1 v2 s20m s20d s7d).month20_streak = 0 ∧
    (mkSignal code nm today price v0 v1 v2 s20m s20d s7d).day20_flag = -1 ∧
    (mkSignal code nm today price v0 v1 v2 s20m s20d s7d).day20_streak = 0 ∧
    (mkSignal code nm today price v0 v1 v2 s20m s20d s7d).day7_flag = -1 ∧
    (mkSignal code nm today price v0 v1 v2 s20m s20d s7d).day7_streak = 0 := by
  simp [mkSignal, hm, hd20, hd7, get_scalar]


/-- Ticker code used for concrete test inputs. -/
def nmA : String := "A"

/-- Company name used for concrete test inputs. -/
def nmB : String := "B"

/-- A concrete three-bar series entirely inside one calendar month:
closes 10, 12, 14 and volumes 100, 50, 60.  Its monthly frame has one
row, so the real program hits the uncaught squeeze-scalar
AttributeError of source line 58 on it. -/
def bars3 : List DailyBar := [⟨0, 1, 10, 100⟩, ⟨0, 1, 12, 50⟩, ⟨0, 1, 14, 60⟩]

/-- A concrete three-bar series spanning two calendar months, constant
close 10: one bar in month 0 and two in month 1, volumes 100, 50, 60.
Its monthly frame has two rows, so the analysis completes. -/
def bars2m : List DailyBar := [⟨0, 1, 10, 100⟩, ⟨1, 1, 10, 50⟩, ⟨1, 1, 10, 60⟩]

/-- The record `analyze_single_stock` produces on `bars2m`: the monthly
closes equal their running mean, so the monthly streak is [-1, -2] and
the stored month field is -2; the daily streaks are [-1, -2, -3]; the
volume ratio is 120. -/
def sig2m (c n : String) : TickerSignal :=
  ⟨c, n, 10, -1, -2, -1, -3, -1, -3, 60, 50, 100, 120, 0⟩

/-- Fetcher returning no data for every symbol. -/
def fetchNil : String → List DailyBar := fun _ => []

/-- Fetcher returning the crashing single-month series for every
symbol. -/
def fetchCrash : String → List DailyBar := fun _ => bars3

/-- Fetcher returning the crashing series for the code `nmA` and the
two-month series for every other code. -/
def fetchMix : String → List DailyBar := fun t => if t = nmA then bars3 else bars2m

theorem analyze_bars3_error (c n : String) :
    analyze_single_stock c n 0 bars3 = Except.error () := rfl

theorem analyze_bars2m (c n : String) :
    analyze_single_stock c n 0 bars2m = Except.ok (some (sig2m c n)) := by
  have hmc : monthClose bars2m = [some 10, some 10] := rfl
  have hm2 : rollingMeanO 20 1 [some 10, some 10] = [some 10, some 10] := by
    norm_num [rollingMeanO, List.range_succ, List.reduceOption_cons_of_some,
      List.reduceOption_nil]
  have hm3 : subO [some 10, some 10] [some 10, some 10] = [some 0, some 0] := by
    norm_num [subO]
  have hm4 : calculate_streak [some 0, some 0] = [-1, -2] := by decide
  have hm : streak20m bars2m = Except.ok [-1, -2] := by
    rw [streak20m, hmc, if_neg (by decide), hm2, hm3, hm4]
  have hdc : dailyClose bars2m = [some 10, some 10, some 10] := rfl
  have hd3 : subO [some 10, some 10, some 10] [some 10, some 10, some 10] =
      [some 0, some 0, some 0] := by norm_num [subO]
  have hd4 : calculate_streak [some 0, some 0, some 0] = [-1, -2, -3] := by decide
  have h20 : streak20d bars2m = Except.ok [-1, -2, -3] := by
    have hd2 : rollingMeanO 20 1 [some 10, some 10, some 10] =
        [some 10, some 10, some 10] := by
      norm_num [rollingMeanO, List.range_succ, List.reduceOption_cons_of_some,
        List.reduceOption_nil]
    rw [streak20d, hdc, if_neg (by decide), hd2, hd3, hd4]
  have h7 : streak7d bars2m = Except.ok [-1, -2, -3] := by
    have hd2 : rollingMeanO 7 1 [some 10, some 10, some 10] =
        [some 10, some 10, some 10] := by
      norm_num [rollingMeanO, List.range_succ, List.reduceOption_cons_of_some,
        List.reduceOption_nil]
    rw [streak7d, hdc, if_neg (by decide), hd2, hd3, hd4]
  have hc : (bars2m.map DailyBar.close).reverse = [10, 10, 10] := rfl
  have hv : (bars2m.map DailyBar.volume).reverse = [60, 50, 100] := rfl
  have hie : bars2m.isEmpty = false := rfl
  simp only [analyze_single_stock, hie, Bool.false_eq_true, if_false, hc, hv,
    hm, h20, h7]
  refine congrArg Except.ok (congrArg some ?_)
  simp only [mkSignal, sig2m]
  norm_num [TickerSignal.mk.injEq, pyInt, volume_ratio_calc, get_scalar,
    List.getLast?]

/-- C1 (counterexample): on the two-calendar-month input `bars2m` the
analysis succeeds and the monthly streak value is -2 (the flat monthly
series stays at its running mean, a zero difference, for two months);
the stored month20 streak-length field is -2 as well: it does not equal
abs(-2) = 2 and is not >= 1, refuting the claim that the stored field
is the magnitude. -/
theorem streak_field_not_abs :
    analyze_single_stock nmA nmB 0 bars2m = Except.ok (some (sig2m nmA nmB)) ∧
    (sig2m nmA nmB).month20_streak = -2 ∧
    (sig2m nmA nmB).month20_streak ≠
      (((sig2m nmA nmB).month20_streak.natAbs : Nat) : Int) ∧
    ¬ (1 : Int) ≤ (sig2m nmA nmB).month20_streak := by
  exact ⟨analyze_bars2m nmA nmB, rfl, by decide, by decide⟩

/-- C3 (counterexample): a two-ticker universe where the first ticker's
fetched series is the single-calendar-month `bars3`: the uncaught
AttributeError of source line 58 aborts the whole batch, and the second
ticker - which alone yields a record - is never processed; the batch
does not continue past the failing ticker. -/
theorem batch_abort_on_crash :
    analyze_single_stock nmA nmB 0 bars3 = Except.error () ∧
    runBatch fetchMix 0 [(nmA, nmB), (nmB, nmB)] = Except.error () ∧
    runBatch fetchMix 0 [(nmB, nmB)] = Except.ok [sig2m nmB nmB] := by
  refine ⟨analyze_bars3_error nmA nmB, ?_, ?_⟩
  · have h1 : analyze_single_stock nmA nmB 0 (fetchMix nmA) = Except.error () := by
      have hf : fetchMix nmA = bars3 := rfl
      rw [hf]
      exact analyze_bars3_error nmA nmB
    show runBatchAux fetchMix 0 [] [(nmA, nmB), (nmB, nmB)] = Except.error ()
    simp only [runBatchAux, h1]
  · have h2 : analyze_single_stock nmB nmB 0 (fetchMix nmB) =
        Except.ok (some (sig2m nmB nmB)) := by
      have hf : fetchMix nmB = bars2m := rfl
      rw [hf]
      exact analyze_bars2m nmB nmB
    show runBatchAux fetchMix 0 [] [(nmB, nmB)] = Except.ok [sig2m nmB nmB]
    simp only [runBatchAux, h2, List.nil_append]

theorem streak_fields_signed_witness :
    ((sig2m nmA nmB).month20_flag =
      if 0 < (sig2m nmA nmB).month20_streak then 1 else -1) ∧
    (sig2m nmA nmB).month20_streak ≠ 0 ∧
    1 ≤ (sig2m nmA nmB).month20_streak.natAbs ∧
    ((sig2m nmA nmB).day20_flag =
      if 0 < (sig2m nmA nmB).day20_streak then 1 else -1) ∧
    (sig2m nmA nmB).day20_streak ≠ 0 ∧
    1 ≤ (sig2m nmA nmB).day20_streak.natAbs ∧
    ((sig2m nmA nmB).day7_flag =
      if 0 < (sig2m nmA nmB).day7_streak then 1 else -1) ∧
    (sig2m nmA nmB).day7_streak ≠ 0 ∧
    1 ≤ (sig2m nmA nmB).day7_streak.natAbs :=
  streak_fields_signed nmA nmB 0 bars2m (sig2m nmA nmB) (analyze_bars2m nmA nmB)

theorem flag_iff_streak_pos_witness :
    (((sig2m nmA nmB).month20_flag = 1 ↔ 0 < (sig2m nmA nmB).month20_streak) ∧
      ((sig2m nmA nmB).month20_flag = -1 ↔ (sig2m nmA nmB).month20_streak ≤ 0)) ∧
    (((sig2m nmA nmB).day20_flag = 1 ↔ 0 < (sig2m nmA nmB).day20_streak) ∧
      ((sig2m nmA nmB).day20_flag = -1 ↔ (sig2m nmA nmB).day20_streak ≤ 0)) ∧
    (((sig2m nmA nmB).day7_flag = 1 ↔ 0 < (sig2m nmA nmB).day7_streak) ∧
      ((sig2m nmA nmB).day7_flag = -1 ↔ (sig2m nmA nmB).day7_streak ≤ 0)) :=
  flag_iff_streak_pos nmA nmB 0 bars2m (sig2m nmA nmB) (analyze_bars2m nmA nmB)

theorem volume_ratio_spec_witness :
    ∃ v0 v1 v2 vr,
      (bars2m.map DailyBar.volume).reverse = v0 :: v1 :: v2 :: vr ∧
      (0 ≤ v0 → 0 < v1 →
        (sig2m nmA nmB).volume_ratio = Int.floor (v0 / v1 * 100)) ∧
      (v1 = 0 → (sig2m nmA nmB).volume_ratio = 0) :=
  volume_ratio_spec nmA nmB 0 bars2m (sig2m nmA nmB) (analyze_bars2m nmA nmB)

theorem latest_price_last_close_witness :
    ∃ c, (bars2m.map DailyBar.close).getLast? = some c ∧
      (sig2m nmA nmB).latest_price = pyInt c :=
  latest_price_last_close nmA nmB 0 bars2m (sig2m nmA nmB) (analyze_bars2m nmA nmB)

theorem short_series_none_witness :
    ([⟨0, 1, 2, 3⟩] : List DailyBar).length < 3 ∧
    analyze_single_stock nmA nmB 0 [⟨0, 1, 2, 3⟩] = Except.ok none :=
  ⟨by norm_num, short_series_none nmA nmB 0 [⟨0, 1, 2, 3⟩] (by norm_num)⟩

theorem rollingMean_minPeriods_one_witness :
    (0 : Nat) < 2 ∧ (1 : Nat) < ([5, 7] : List Rat).length ∧
    (((([5, 7] : List Rat).take (1 + 1)).drop (1 + 1 - 2)).length = min 2 (1 + 1) ∧
      (rollingMeanO 2 1 (([5, 7] : List Rat).map some))[1]? =
        some (some ((((([5, 7] : List Rat).take (1 + 1)).drop (1 + 1 - 2)).sum /
          ((((([5, 7] : List Rat).take (1 + 1)).drop (1 + 1 - 2)).length : Nat) : Rat)))) ∧
      ((1 : Nat) = 0 → (rollingMeanO 2 1 (([5, 7] : List Rat).map some))[1]? =
        some (some ([5, 7] : List Rat).headI))) :=
  ⟨by norm_num, by norm_num,
    rollingMean_minPeriods_one 2 (by norm_num) [5, 7] 1 (by norm_num)⟩

theorem nan_streak_default_witness :
    (([] : List Int).getLast? = none) ∧
    (get_scalar none = 0 ∧
      (mkSignal nmA nmB 0 0 0 0 0 [] [] []).month20_flag = -1 ∧
      (mkSignal nmA nmB 0 0 0 0 0 [] [] []).month20_streak = 0 ∧
      (mkSignal nmA nmB 0 0 0 0 0 [] [] []).day20_flag = -1 ∧
      (mkSignal nmA nmB 0 0 0 0 0 [] [] []).day20_streak = 0 ∧
      (mkSignal nmA nmB 0 0 0 0 0 [] [] []).day7_flag = -1 ∧
      (mkSignal nmA nmB 0 0 0 0 0 [] [] []).day7_streak = 0) :=
  ⟨rfl, nan_streak_default nmA nmB 0 0 0 0 0 [] [] [] rfl rfl rfl⟩

theorem ticker_failure_policy_witness :
    analyze_single_stock nmA nmA 0 [] = Except.ok none ∧
    runBatch fetchNil 0 ([(nmA, nmA)] ++ (nmA, nmA) :: []) =
      runBatch fetchNil 0 ([(nmA, nmA)] ++ []) ∧
    analyze_single_stock nmA nmB 0 bars3 = Except.error () ∧
    runBatchAux fetchCrash 0 [] ((nmA, nmB) :: [(nmB, nmB)]) = Except.error () ∧
    mainModel fetchNil 0 none = none :=
  ⟨rfl,
   (ticker_failure_policy fetchNil 0 [(nmA, nmA)] [] (nmA, nmA) []).1 rfl,
   analyze_bars3_error nmA nmB,
   (ticker_failure_policy fetchCrash 0 [] [(nmB, nmB)] (nmA, nmB) []).2.1
     (analyze_bars3_error nmA nmB),
   (ticker_failure_policy fetchNil 0 [] [] (nmA, nmA) []).2.2⟩

theorem calculate_streak_bounds_witness :
    (1 : Nat) < ([some 1, none] : List (Option Rat)).length ∧
    ((calculate_streak [some 1, none]).getD 1 0 ≠ 0 ∧
      1 ≤ ((calculate_streak [some 1, none]).getD 1 0).natAbs ∧
      ((calculate_streak [some 1, none]).getD 1 0).natAbs ≤ 1 + 1) :=
  ⟨by norm_num, (calculate_streak_bounds [some 1, none]).2 1 (by norm_num)⟩

end StockData
